import Mathlib

/-!
Lifecycle coordinator (`baseapp/baseapp.go`).

A shallow embedding of `BaseApp` and its methods `New`, `Logger`, `Start`,
`RegisterHTTPHandlers` and `Stop`.

Collaborators (logger, chain client, store, job manager, HTTP server, the Go
`context` and `os/signal` packages) are consumed by the coordinator only through
calls, so they are modelled as free terms: a value records how it was built, a
call is an entry of the effect trace.  A method body is a list of statements of
a small Go fragment (synchronous call, `go` call, `defer` call, channel receive
on `ctx.Done()`, field assignment), run by the interpreter `exec`.

Expressions that only build an argument or a receiver (`b.Logger()`,
`context.Background()`, `promhttp.Handler()`, the `server.Handler` literal) are
values; the statements of a body are the calls made with them.  A run is
described by an environment: which calls return to their caller, and which
signals the process receives.
-/

set_option linter.dupNamespace false

namespace Baseapp

/-! ## Collaborator values -/

/-- OS signals.  `interrupt` is `os.Interrupt`, `sigterm` is `syscall.SIGTERM`;
`other n` stands for every remaining signal. -/
inductive Signal where
  | interrupt
  | sigterm
  | other (num : Nat)
  deriving DecidableEq

/-- Output streams a logger can write to (`os.Stdout`, ...). -/
inductive Writer where
  | Stdout
  | Stderr
  | file (fd : Nat)
  deriving DecidableEq

/-- Values of the interface `log.Logger`: a logger received from the caller
(`ref`), the result of `log.NewBlankLogger(w)`, or the result of
`l.With(key, value)`. -/
inductive Logger where
  | ref (id : Nat)
  | blank (w : Writer)
  | With (l : Logger) (key value : String)
  deriving DecidableEq

/-- The call `log.NewBlankLogger(w)`. -/
def NewBlankLogger (w : Writer) : Logger := Logger.blank w

/-- Severity of a log entry. -/
inductive Level where
  | debug
  | info
  | warn
  | error
  deriving DecidableEq

/-- A chain client handle (`eth.Client`), identified by reference. -/
structure EthClient where
  ref : Nat
  deriving DecidableEq

/-- A key-value store handle (`ethdb.KeyValueStore`), identified by reference. -/
structure KeyValueStore where
  ref : Nat
  deriving DecidableEq

/-- A work definition (`job.Basic`), identified by reference. -/
structure Job where
  ref : Nat
  deriving DecidableEq

/-- Modelled from the spec: the job manager type `Manager` and its constructor
`NewManager` belong to package `baseapp` but their file is not among the
sources.  The spec says only that the coordinator's constructor creates the
work-processing subsystem; the value records the arguments it is created from. -/
structure Manager where
  name : String
  logger : Logger
  jobs : List Job
  deriving DecidableEq

/-- Modelled from the spec: the call `NewManager(name, logger, jobs)` (file not
among the sources), the manager created from these three arguments. -/
def NewManager (name : String) (logger : Logger) (jobs : List Job) : Manager :=
  ⟨name, logger, jobs⟩

/-- A reference to an HTTP server, `*server.Server`.  `New` is the server that
`server.New()` creates for the coordinator; `ref addr` is any other server,
told apart by its address. -/
inductive Server where
  | New
  | ref (addr : Nat)
  deriving DecidableEq

/-- An `http.Handler` value; `promhttp` is the result of `promhttp.Handler()`. -/
inductive HTTPHandler where
  | promhttp
  | custom (id : Nat)
  deriving DecidableEq

/-- The struct `server.Handler{Path, Handler}`. -/
structure Handler where
  Path : String
  Handler : HTTPHandler
  deriving DecidableEq

/-- Context values.  `background` is `context.Background()`,
`notify parent sigs` is the context returned by
`signal.NotifyContext(parent, sigs...)`, and `sdk parent c l d` is the result
of `sdk.NewContext(parent, c, l, d)`. -/
inductive GoContext where
  | background
  | notify (parent : GoContext) (sigs : List Signal)
  | sdk (parent : GoContext) (ethClient : EthClient) (logger : Logger) (db : KeyValueStore)
  deriving DecidableEq

/-- Modelled from the spec: `sdk.NewContext` is in the repository's `types`
package, which is not among the sources.  The spec: it "produces a context that
inherits cancellation from the parent signal source and exposes read accessors
for chainClient, logger, and store". -/
def NewContext (parent : GoContext) (ethClient : EthClient) (logger : Logger)
    (db : KeyValueStore) : GoContext :=
  GoContext.sdk parent ethClient logger db

/-- Modelled from the spec: read accessor for the chain client of a shared
context (package `types`, not among the sources). -/
def GoContext.Client : GoContext → Option EthClient
  | .sdk _ c _ _ => some c
  | _ => none

/-- Modelled from the spec: read accessor for the logger of a shared context
(package `types`, not among the sources). -/
def GoContext.Logger : GoContext → Option Logger
  | .sdk _ _ l _ => some l
  | _ => none

/-- Modelled from the spec: read accessor for the store of a shared context
(package `types`, not among the sources). -/
def GoContext.DB : GoContext → Option KeyValueStore
  | .sdk _ _ _ d => some d
  | _ => none

/-- Whether the channel `ctx.Done()` is closed, given the signals delivered to
the process and the signal contexts whose `stop` function has been called.
The background context is never done; a signal context is done when its parent
is, when its `stop` was called, or when one of its signals arrived; a shared
context inherits cancellation from its parent (modelled from the spec, see
`NewContext`). -/
def GoContext.Done : GoContext → List Signal → List GoContext → Bool
  | .background, _, _ => false
  | .notify p sigs, delivered, released =>
      p.Done delivered released
        || released.contains (.notify p sigs)
        || delivered.any (fun s => sigs.contains s)
  | .sdk p _ _ _, delivered, released => p.Done delivered released

/-! ## The coordinator -/

/-- The struct `BaseApp`. -/
structure BaseApp where
  name : String
  logger : Logger
  jobMgr : Manager
  ethClient : EthClient
  db : KeyValueStore
  svr : Server
  deriving DecidableEq

/-- The constructor `New`. -/
def New (name : String) (logger : Logger) (ethClient : EthClient) (jobs : List Job)
    (db : KeyValueStore) : BaseApp where
  name := name
  logger := NewBlankLogger Writer.Stdout
  ethClient := ethClient
  jobMgr := NewManager name logger jobs
  db := db
  svr := Server.New

/-- The method `Logger`: `b.logger.With("namespace", b.name+"-app")`. -/
def BaseApp.Logger (b : BaseApp) : Logger :=
  b.logger.With "namespace" (b.name ++ "-app")

/-! ## Statements, effects and their execution -/

/-- Calls the coordinator makes on its collaborators. -/
inductive Call where
  | log (l : Logger) (lvl : Level) (msg : String)
  | NotifyContext (parent : GoContext) (sigs : List Signal)
  | stop (ctx : GoContext)
  | NewContext (parent : GoContext) (ethClient : EthClient) (logger : Logger)
      (db : KeyValueStore)
  | jobMgrStart (m : Manager) (ctx : GoContext)
  | jobMgrRunProducers (m : Manager) (ctx : GoContext)
  | jobMgrStop (m : Manager)
  | RegisterHandler (s : Server) (h : Handler)
  | svrStart (s : Server)
  | svrStop (s : Server)
  deriving DecidableEq

/-- Statements of a method body: `f(..)`, `go f(..)`, `defer f(..)`,
`<-ctx.Done()` and an assignment to the receiver's fields. -/
inductive Stmt where
  | call (c : Call)
  | go (c : Call)
  | deferCall (c : Call)
  | recv (ctx : GoContext)
  | assign (upd : BaseApp → BaseApp)

/-- Entries of an effect trace: a call made synchronously, a call launched on
its own goroutine, the start of a blocking wait on `ctx.Done()`, and a deferred
call run while the method returns. -/
inductive Event where
  | sync (c : Call)
  | async (c : Call)
  | wait (ctx : GoContext)
  | deferred (c : Call)
  deriving DecidableEq

/-- The call an event carries, if any. -/
def Event.call : Event → Option Call
  | .sync c => some c
  | .async c => some c
  | .wait _ => none
  | .deferred c => some c

/-- Whether an event is a launch on a separate goroutine. -/
def Event.isAsync : Event → Bool
  | .async _ => true
  | _ => false

/-- The environment of a run: which calls return to their caller, and which
signals the process receives while a wait is pending. -/
structure Env where
  returns : Call → Bool
  delivered : List Signal

/-- The result of running a method: the receiver afterwards, the trace, and
whether the method returned (`false`: it is blocked in a call or a wait). -/
structure Run where
  app : BaseApp
  trace : List Event
  returned : Bool

/-- Put an event in front of a run's trace. -/
def Run.cons (e : Event) (r : Run) : Run := ⟨r.app, e :: r.trace, r.returned⟩

/-- The signal contexts released after a call: `stop()` releases its context. -/
def Call.release : Call → List GoContext → List GoContext
  | .stop ctx, rel => ctx :: rel
  | _, rel => rel

/-- Run the deferred calls of a returning method, last deferred first (the list
is kept in that order). -/
def runDeferred (env : Env) (app : BaseApp) : List Call → Run
  | [] => ⟨app, [], true⟩
  | c :: cs =>
      if env.returns c then (runDeferred env app cs).cons (.deferred c)
      else ⟨app, [.deferred c], false⟩

/-- Run a method body.  `rel` holds the signal contexts already released and
`ds` the calls deferred so far.  A synchronous call that does not return, or a
wait on a context that is never done, blocks the method there. -/
def exec (env : Env) : List Stmt → BaseApp → List GoContext → List Call → Run
  | [], app, _, ds => runDeferred env app ds
  | .call c :: rest, app, rel, ds =>
      if env.returns c then (exec env rest app (c.release rel) ds).cons (.sync c)
      else ⟨app, [.sync c], false⟩
  | .go c :: rest, app, rel, ds => (exec env rest app rel ds).cons (.async c)
  | .deferCall c :: rest, app, rel, ds => exec env rest app rel (c :: ds)
  | .recv ctx :: rest, app, rel, ds =>
      if ctx.Done env.delivered rel then (exec env rest app rel ds).cons (.wait ctx)
      else ⟨app, [.wait ctx], false⟩
  | .assign upd :: rest, app, rel, ds => exec env rest (upd app) rel ds

/-! ## The methods -/

/-- The method `RegisterHTTPHandlers`. -/
def BaseApp.RegisterHTTPHandlers (b : BaseApp) : List Stmt :=
  [.call (.RegisterHandler b.svr ⟨"/metrics", HTTPHandler.promhttp⟩)]

/-- The first value of the local `ctx` of `Start`:
`signal.NotifyContext(context.Background(), os.Interrupt, syscall.SIGTERM)`. -/
def signalCtx : GoContext :=
  GoContext.notify GoContext.background [Signal.interrupt, Signal.sigterm]

/-- The second value of the local `ctx` of `Start`:
`sdk.NewContext(ctx, b.ethClient, b.logger, b.db)`. -/
def BaseApp.sharedCtx (b : BaseApp) : GoContext :=
  NewContext signalCtx b.ethClient b.logger b.db

/-- The method `Start`.  The nested call `b.RegisterHTTPHandlers()` defers
nothing, so its statements run in place. -/
def BaseApp.Start (b : BaseApp) : List Stmt :=
  [ .call (.log b.Logger Level.info "starting app"),
    .call (.NotifyContext GoContext.background [Signal.interrupt, Signal.sigterm]),
    .deferCall (.stop signalCtx),
    .call (.NewContext signalCtx b.ethClient b.logger b.db),
    .call (.jobMgrStart b.jobMgr b.sharedCtx),
    .call (.jobMgrRunProducers b.jobMgr b.sharedCtx) ]
  ++ b.RegisterHTTPHandlers ++
  [ .go (.svrStart b.svr),
    .recv b.sharedCtx ]

/-- The method `Stop`. -/
def BaseApp.Stop (b : BaseApp) : List Stmt :=
  [ .call (.log b.Logger Level.info "stopping app"),
    .call (.jobMgrStop b.jobMgr),
    .call (.svrStop b.svr) ]

/-- The operations of the coordinator. -/
inductive Op where
  | Logger
  | Start
  | RegisterHTTPHandlers
  | Stop
  deriving DecidableEq

/-- The statements an operation runs.  `Logger` only builds a value. -/
def BaseApp.body (b : BaseApp) : Op → List Stmt
  | .Logger => []
  | .Start => b.Start
  | .RegisterHTTPHandlers => b.RegisterHTTPHandlers
  | .Stop => b.Stop

/-- Run one operation on the receiver.  The contexts a method creates are
fresh, so none of them is released when the method is entered. -/
def runOp (env : Env) (b : BaseApp) (op : Op) : Run := exec env (b.body op) b [] []

/-- Run a sequence of operations, one after the other, as one caller does; the
sequence stops at the first operation that blocks. -/
def runOps (env : Env) : List Op → BaseApp → Run
  | [], b => ⟨b, [], true⟩
  | op :: ops, b =>
      let r := runOp env b op
      if r.returned then
        let r2 := runOps env ops r.app
        ⟨r2.app, r.trace ++ r2.trace, r2.returned⟩
      else r

/-- Whether a statement assigns to a field of the receiver. -/
def Stmt.writes : Stmt → Bool
  | .assign _ => true
  | _ => false

/-- An environment in which every call returns. -/
def Env.cooperative (delivered : List Signal) : Env := ⟨fun _ => true, delivered⟩

/-- Whether one of the signals delivered is `os.Interrupt` or `syscall.SIGTERM`. -/
def cancelled (delivered : List Signal) : Bool :=
  delivered.any (fun s => decide (s = Signal.interrupt ∨ s = Signal.sigterm))

/-! ## The traces the specification describes -/

/-- The startup sequence as the specification lists it: log entry, signal
listener, shared context, job manager start, producers, `/metrics`
registration, server launch, blocking wait. -/
def startSequence (b : BaseApp) : List Event :=
  [ .sync (.log (b.logger.With "namespace" (b.name ++ "-app")) Level.info "starting app"),
    .sync (.NotifyContext GoContext.background [Signal.interrupt, Signal.sigterm]),
    .sync (.NewContext signalCtx b.ethClient b.logger b.db),
    .sync (.jobMgrStart b.jobMgr b.sharedCtx),
    .sync (.jobMgrRunProducers b.jobMgr b.sharedCtx),
    .sync (.RegisterHandler b.svr ⟨"/metrics", HTTPHandler.promhttp⟩),
    .async (.svrStart b.svr),
    .wait b.sharedCtx ]

/-- The shutdown sequence as the specification lists it: log entry, job
manager stop, server stop. -/
def stopSequence (b : BaseApp) : List Event :=
  [ .sync (.log (b.logger.With "namespace" (b.name ++ "-app")) Level.info "stopping app"),
    .sync (.jobMgrStop b.jobMgr),
    .sync (.svrStop b.svr) ]

/-- A concrete coordinator used in examples. -/
def demoApp : BaseApp :=
  New "relayer" (Logger.ref 7) ⟨1⟩ [⟨10⟩, ⟨11⟩] ⟨2⟩

/-! ## The interpreter, one statement at a time -/

/-- Trace of a body that begins with a synchronous call. -/
theorem exec_call_trace (env : Env) (c : Call) (rest : List Stmt) (app : BaseApp)
    (rel : List GoContext) (ds : List Call) :
    (exec env (.call c :: rest) app rel ds).trace
      = Event.sync c ::
          (if env.returns c then (exec env rest app (c.release rel) ds).trace else []) := by
  simp only [exec]; split_ifs <;> simp [Run.cons]

/-- Result of a body that begins with a synchronous call. -/
theorem exec_call_returned (env : Env) (c : Call) (rest : List Stmt) (app : BaseApp)
    (rel : List GoContext) (ds : List Call) :
    (exec env (.call c :: rest) app rel ds).returned
      = (env.returns c && (exec env rest app (c.release rel) ds).returned) := by
  simp only [exec]; split_ifs with h <;> simp [Run.cons, h]

/-- Trace of a body that begins with a `go` call. -/
theorem exec_go_trace (env : Env) (c : Call) (rest : List Stmt) (app : BaseApp)
    (rel : List GoContext) (ds : List Call) :
    (exec env (.go c :: rest) app rel ds).trace
      = Event.async c :: (exec env rest app rel ds).trace := by
  simp [exec, Run.cons]

/-- Result of a body that begins with a `go` call. -/
theorem exec_go_returned (env : Env) (c : Call) (rest : List Stmt) (app : BaseApp)
    (rel : List GoContext) (ds : List Call) :
    (exec env (.go c :: rest) app rel ds).returned = (exec env rest app rel ds).returned := by
  simp [exec, Run.cons]

/-- Trace of a body that begins with a wait. -/
theorem exec_recv_trace (env : Env) (ctx : GoContext) (rest : List Stmt) (app : BaseApp)
    (rel : List GoContext) (ds : List Call) :
    (exec env (.recv ctx :: rest) app rel ds).trace
      = Event.wait ctx ::
          (if ctx.Done env.delivered rel then (exec env rest app rel ds).trace else []) := by
  simp only [exec]; split_ifs <;> simp [Run.cons]

/-- Result of a body that begins with a wait. -/
theorem exec_recv_returned (env : Env) (ctx : GoContext) (rest : List Stmt) (app : BaseApp)
    (rel : List GoContext) (ds : List Call) :
    (exec env (.recv ctx :: rest) app rel ds).returned
      = (ctx.Done env.delivered rel && (exec env rest app rel ds).returned) := by
  simp only [exec]; split_ifs with h <;> simp [Run.cons, h]

/-- A `defer` statement only records its call. -/
theorem exec_defer_eq (env : Env) (c : Call) (rest : List Stmt) (app : BaseApp)
    (rel : List GoContext) (ds : List Call) :
    exec env (.deferCall c :: rest) app rel ds = exec env rest app rel (c :: ds) := by
  simp [exec]

/-- At the end of the body the deferred calls run. -/
theorem exec_nil_eq (env : Env) (app : BaseApp) (rel : List GoContext) (ds : List Call) :
    exec env [] app rel ds = runDeferred env app ds := by
  simp [exec]

/-- Trace of the deferred calls. -/
theorem runDeferred_cons_trace (env : Env) (app : BaseApp) (c : Call) (cs : List Call) :
    (runDeferred env app (c :: cs)).trace
      = Event.deferred c :: (if env.returns c then (runDeferred env app cs).trace else []) := by
  simp only [runDeferred]; split_ifs <;> simp [Run.cons]

/-- Result of the deferred calls. -/
theorem runDeferred_cons_returned (env : Env) (app : BaseApp) (c : Call) (cs : List Call) :
    (runDeferred env app (c :: cs)).returned
      = (env.returns c && (runDeferred env app cs).returned) := by
  simp only [runDeferred]; split_ifs with h <;> simp [Run.cons, h]

/-- With nothing deferred the method returns at once. -/
theorem runDeferred_nil (env : Env) (app : BaseApp) :
    (runDeferred env app []).trace = [] ∧ (runDeferred env app []).returned = true := by
  simp [runDeferred]

/-! ## Normal forms of the three bodies -/

/-- The shared context of `Start` is done, before any release, exactly when an
interrupt or termination signal was delivered. -/
theorem sharedCtx_done (b : BaseApp) (delivered : List Signal) :
    b.sharedCtx.Done delivered [] = cancelled delivered := by
  simp [BaseApp.sharedCtx, NewContext, signalCtx, GoContext.Done, cancelled]

/-- The trace of `Start` in an arbitrary run: each step is reached only when
the synchronous call before it returned, and the deferred release only when
the wait ended. -/
theorem start_trace (b : BaseApp) (env : Env) :
    (runOp env b Op.Start).trace
      = Event.sync (Call.log b.Logger Level.info "starting app") ::
        (if env.returns (Call.log b.Logger Level.info "starting app") then
          Event.sync (Call.NotifyContext GoContext.background
            [Signal.interrupt, Signal.sigterm]) ::
        (if env.returns (Call.NotifyContext GoContext.background
            [Signal.interrupt, Signal.sigterm]) then
          Event.sync (Call.NewContext signalCtx b.ethClient b.logger b.db) ::
        (if env.returns (Call.NewContext signalCtx b.ethClient b.logger b.db) then
          Event.sync (Call.jobMgrStart b.jobMgr b.sharedCtx) ::
        (if env.returns (Call.jobMgrStart b.jobMgr b.sharedCtx) then
          Event.sync (Call.jobMgrRunProducers b.jobMgr b.sharedCtx) ::
        (if env.returns (Call.jobMgrRunProducers b.jobMgr b.sharedCtx) then
          Event.sync (Call.RegisterHandler b.svr ⟨"/metrics", HTTPHandler.promhttp⟩) ::
        (if env.returns (Call.RegisterHandler b.svr ⟨"/metrics", HTTPHandler.promhttp⟩) then
          Event.async (Call.svrStart b.svr) ::
          Event.wait b.sharedCtx ::
        (if cancelled env.delivered then [Event.deferred (Call.stop signalCtx)] else [])
        else []) else []) else []) else []) else []) else []) := by
  simp only [runOp, BaseApp.body, BaseApp.Start, BaseApp.RegisterHTTPHandlers, List.cons_append,
    List.nil_append, exec_call_trace, exec_go_trace, exec_recv_trace, exec_nil_eq, exec_defer_eq,
    runDeferred_cons_trace, Call.release, sharedCtx_done, runDeferred_nil, ite_self]

/-- The method `Start` returns exactly when its six synchronous calls return,
the cancellation fires and the deferred release returns. -/
theorem start_returned (b : BaseApp) (env : Env) :
    (runOp env b Op.Start).returned
      = (env.returns (Call.log b.Logger Level.info "starting app")
          && (env.returns (Call.NotifyContext GoContext.background
                [Signal.interrupt, Signal.sigterm])
          && (env.returns (Call.NewContext signalCtx b.ethClient b.logger b.db)
          && (env.returns (Call.jobMgrStart b.jobMgr b.sharedCtx)
          && (env.returns (Call.jobMgrRunProducers b.jobMgr b.sharedCtx)
          && (env.returns (Call.RegisterHandler b.svr ⟨"/metrics", HTTPHandler.promhttp⟩)
          && (cancelled env.delivered
          && env.returns (Call.stop signalCtx)))))))) := by
  simp only [runOp, BaseApp.body, BaseApp.Start, BaseApp.RegisterHTTPHandlers, List.cons_append,
    List.nil_append, exec_call_returned, exec_go_returned, exec_recv_returned, exec_nil_eq,
    exec_defer_eq, runDeferred_cons_returned, Call.release, sharedCtx_done, runDeferred_nil,
    Bool.and_true]

/-- The trace of `Stop` in an arbitrary run. -/
theorem stop_trace (b : BaseApp) (env : Env) :
    (runOp env b Op.Stop).trace
      = Event.sync (Call.log b.Logger Level.info "stopping app") ::
        (if env.returns (Call.log b.Logger Level.info "stopping app") then
          Event.sync (Call.jobMgrStop b.jobMgr) ::
        (if env.returns (Call.jobMgrStop b.jobMgr) then
          [Event.sync (Call.svrStop b.svr)] else []) else []) := by
  simp only [runOp, BaseApp.body, BaseApp.Stop, exec_call_trace, exec_nil_eq, runDeferred_nil,
    ite_self]

/-- The method `Stop` returns exactly when its three calls return. -/
theorem stop_returned (b : BaseApp) (env : Env) :
    (runOp env b Op.Stop).returned
      = (env.returns (Call.log b.Logger Level.info "stopping app")
          && (env.returns (Call.jobMgrStop b.jobMgr)
          && env.returns (Call.svrStop b.svr))) := by
  simp only [runOp, BaseApp.body, BaseApp.Stop, exec_call_returned, exec_nil_eq, runDeferred_nil,
    Bool.and_true]

/-- The trace and result of `RegisterHTTPHandlers` in an arbitrary run. -/
theorem register_run (b : BaseApp) (env : Env) :
    (runOp env b Op.RegisterHTTPHandlers).trace
        = [Event.sync (Call.RegisterHandler b.svr ⟨"/metrics", HTTPHandler.promhttp⟩)]
      ∧ (runOp env b Op.RegisterHTTPHandlers).returned
          = env.returns (Call.RegisterHandler b.svr ⟨"/metrics", HTTPHandler.promhttp⟩) := by
  simp only [runOp, BaseApp.body, BaseApp.RegisterHTTPHandlers, exec_call_trace,
    exec_call_returned, exec_nil_eq, runDeferred_nil, ite_self, Bool.and_true, and_self]

/-! ## Runs in which every call returns -/

/-- The trace of `Start` when every call returns: the startup sequence, and the
deferred release of the signal listener once the wait has ended. -/
theorem start_trace_cooperative (b : BaseApp) (delivered : List Signal) :
    (runOp (Env.cooperative delivered) b Op.Start).trace
      = startSequence b
          ++ (if cancelled delivered then [Event.deferred (Call.stop signalCtx)] else []) := by
  rw [start_trace]
  simp [Env.cooperative, startSequence, BaseApp.Logger]

/-- When every call returns, `Start` returns exactly when the cancellation fires. -/
theorem start_returned_cooperative (b : BaseApp) (delivered : List Signal) :
    (runOp (Env.cooperative delivered) b Op.Start).returned = cancelled delivered := by
  rw [start_returned]
  simp [Env.cooperative]

/-- In every run the trace of `Start` is an initial segment of the startup
sequence followed by the deferred release. -/
theorem start_trace_initial (b : BaseApp) (env : Env) :
    (runOp env b Op.Start).trace
      <+: startSequence b ++ [Event.deferred (Call.stop signalCtx)] := by
  rw [start_trace]
  simp only [startSequence, BaseApp.Logger, List.cons_append, List.nil_append]
  split_ifs <;> simp [List.cons_prefix_cons]

/-- The trace and the result of `Stop` when every call returns. -/
theorem stop_run_cooperative (b : BaseApp) (delivered : List Signal) :
    (runOp (Env.cooperative delivered) b Op.Stop).trace = stopSequence b
      ∧ (runOp (Env.cooperative delivered) b Op.Stop).returned = true := by
  rw [stop_trace, stop_returned]
  simp [Env.cooperative, stopSequence, BaseApp.Logger]

/-- In every run the trace of `Stop` is an initial segment of the shutdown
sequence. -/
theorem stop_trace_initial (b : BaseApp) (env : Env) :
    (runOp env b Op.Stop).trace <+: stopSequence b := by
  rw [stop_trace]
  simp only [stopSequence, BaseApp.Logger]
  split_ifs <;> simp [List.cons_prefix_cons]

/-! ## The receiver is never written -/

/-- Running a body without assignments leaves the receiver as it was. -/
theorem exec_app (env : Env) (stmts : List Stmt) :
    (∀ s ∈ stmts, s.writes = false) →
      ∀ (app : BaseApp) (rel : List GoContext) (ds : List Call),
        (exec env stmts app rel ds).app = app := by
  induction stmts with
  | nil =>
      intro _ app _ ds
      induction ds with
      | nil => simp [exec, runDeferred]
      | cons c cs ih =>
          simp only [exec, runDeferred] at ih ⊢
          split_ifs <;> simp [Run.cons, ih]
  | cons s rest ih =>
      intro h app rel ds
      have hrest : ∀ t ∈ rest, t.writes = false := fun t ht => h t (List.mem_cons_of_mem _ ht)
      have hs : s.writes = false := h s (List.mem_cons_self _ _)
      cases s with
      | call c =>
          simp only [exec]
          split_ifs <;> simp [Run.cons, ih hrest]
      | go c => simp [exec, Run.cons, ih hrest]
      | deferCall c => simp [exec, ih hrest]
      | recv ctx =>
          simp only [exec]
          split_ifs <;> simp [Run.cons, ih hrest]
      | assign upd => simp [Stmt.writes] at hs

/-- An assignment is visible in the receiver: a body that stores another
server in `svr` ends with that server in the field, and a body that stores
another name in `name` ends with that name. -/
theorem exec_assign_seen (env : Env) (b : BaseApp) (addr : Nat) (n : String) :
    (exec env [Stmt.assign (fun a => ⟨a.name, a.logger, a.jobMgr, a.ethClient, a.db,
        Server.ref addr⟩)] b [] []).app.svr = Server.ref addr
      ∧ (exec env [Stmt.assign (fun a => ⟨n, a.logger, a.jobMgr, a.ethClient, a.db,
        a.svr⟩)] b [] []).app.name = n := by
  simp [exec, runDeferred]

/-- No method body of the coordinator assigns to a field. -/
theorem body_writes (b : BaseApp) (op : Op) : ∀ s ∈ b.body op, s.writes = false := by
  cases op <;>
    simp [BaseApp.body, BaseApp.Start, BaseApp.Stop, BaseApp.RegisterHTTPHandlers, Stmt.writes]

/-- One operation leaves the receiver as it was. -/
theorem runOp_app (env : Env) (b : BaseApp) (op : Op) : (runOp env b op).app = b :=
  exec_app env (b.body op) (body_writes b op) b [] []

/-- A sequence of operations leaves the receiver as it was. -/
theorem runOps_app (env : Env) (ops : List Op) (b : BaseApp) : (runOps env ops b).app = b := by
  induction ops generalizing b with
  | nil => simp [runOps]
  | cons op ops ih =>
      simp only [runOps]
      split_ifs with h
      · simp [ih, runOp_app]
      · exact runOp_app env b op

/-! ## Sequences of operations -/

/-- The run of a sequence whose first operation returns: its trace is the
trace of that operation followed by the trace of the rest. -/
theorem runOps_cons_run (env : Env) (op : Op) (ops : List Op) (b : BaseApp)
    (h : (runOp env b op).returned = true) :
    (runOps env (op :: ops) b).trace = (runOp env b op).trace ++ (runOps env ops b).trace
      ∧ (runOps env (op :: ops) b).returned = (runOps env ops b).returned := by
  simp [runOps, h, runOp_app]

/-- The run of a single operation as a sequence. -/
theorem runOps_single (env : Env) (op : Op) (b : BaseApp) :
    (runOps env [op] b).trace = (runOp env b op).trace
      ∧ (runOps env [op] b).returned = (runOp env b op).returned := by
  simp only [runOps]
  split_ifs with h <;> simp [h]

/-- After a sequence of operations that all returned, a further sequence
contributes its own trace and decides whether the whole returns. -/
theorem runOps_append (env : Env) (hist ops : List Op) (b : BaseApp) :
    (runOps env hist b).returned = true →
      (runOps env (hist ++ ops) b).trace = (runOps env hist b).trace ++ (runOps env ops b).trace
        ∧ (runOps env (hist ++ ops) b).returned = (runOps env ops b).returned := by
  induction hist generalizing b with
  | nil => intro _; simp [runOps]
  | cons op rest ih =>
      intro h
      by_cases hop : (runOp env b op).returned = true
      · have hrest : (runOps env rest b).returned = true := by
          simpa [runOps, hop, runOp_app] using h
        have := ih b hrest
        simp [runOps, hop, runOp_app, this.1, this.2]
      · have hop2 : (runOp env b op).returned = false := by simpa using hop
        have hfalse : (runOps env (op :: rest) b).returned = false := by
          simp [runOps, hop2]
        rw [hfalse] at h
        exact absurd h (by decide)

/-- Repeating `RegisterHTTPHandlers` repeats its single registration. -/
theorem register_replicate (b : BaseApp) (delivered : List Signal) (n : Nat) :
    (runOps (Env.cooperative delivered) (List.replicate n Op.RegisterHTTPHandlers) b).trace
        = List.replicate n
            (Event.sync (Call.RegisterHandler b.svr ⟨"/metrics", HTTPHandler.promhttp⟩))
      ∧ (runOps (Env.cooperative delivered)
          (List.replicate n Op.RegisterHTTPHandlers) b).returned = true := by
  induction n with
  | zero => simp [runOps]
  | succ k ih =>
      have h0 := register_run b (Env.cooperative delivered)
      have h1 : (runOp (Env.cooperative delivered) b Op.RegisterHTTPHandlers).returned = true := by
        rw [h0.2]; rfl
      have h3 := runOps_cons_run (Env.cooperative delivered) Op.RegisterHTTPHandlers
        (List.replicate k Op.RegisterHTTPHandlers) b h1
      rw [List.replicate_succ, h3.1, h3.2, h0.1, ih.1, ih.2]
      simp [List.replicate_succ]

/-! ## Claims -/

/-- Claim C1, as stated, fails: in a run of `Start` in which the termination
signal is delivered and every call returns, `Start` returns and its trace
holds no call of `jobMgr.Stop` and no call of `svr.Stop`. -/
theorem start_calls_no_stop_counterexample :
    cancelled [Signal.sigterm] = true
      ∧ (runOp (Env.cooperative [Signal.sigterm]) demoApp Op.Start).returned = true
      ∧ ∀ e ∈ (runOp (Env.cooperative [Signal.sigterm]) demoApp Op.Start).trace,
          e.call ≠ some (Call.jobMgrStop demoApp.jobMgr)
            ∧ e.call ≠ some (Call.svrStop demoApp.svr) := by
  decide

/-- Claim C1 (amended): in a run of `Start` in which the cancellation signal
fires and the calls return, `Start` performs after the blocking wait only the
deferred release of the signal listener and returns; no event of its trace is a
call of `jobMgr.Stop` or `svr.Stop`.  The shutdown sequence runs when the caller
invokes `Stop` afterwards: the trace of `Start` then `Stop` is the startup
sequence up to the wait, the release, and then the log entry, `jobMgr.Stop` and
`svr.Stop`, in this order. -/
theorem start_returns_then_caller_stops (b : BaseApp) (delivered : List Signal)
    (hfire : cancelled delivered = true) :
    (runOp (Env.cooperative delivered) b Op.Start).returned = true
      ∧ (runOp (Env.cooperative delivered) b Op.Start).trace
          = startSequence b ++ [Event.deferred (Call.stop signalCtx)]
      ∧ (∀ e ∈ (runOp (Env.cooperative delivered) b Op.Start).trace,
          ∀ m s, e.call ≠ some (Call.jobMgrStop m) ∧ e.call ≠ some (Call.svrStop s))
      ∧ (runOps (Env.cooperative delivered) [Op.Start, Op.Stop] b).trace
          = startSequence b ++ [Event.deferred (Call.stop signalCtx)]
              ++ [ Event.sync (Call.log b.Logger Level.info "stopping app"),
                   Event.sync (Call.jobMgrStop b.jobMgr),
                   Event.sync (Call.svrStop b.svr) ]
      ∧ (runOps (Env.cooperative delivered) [Op.Start, Op.Stop] b).returned = true := by
  have hret : (runOp (Env.cooperative delivered) b Op.Start).returned = true := by
    rw [start_returned_cooperative, hfire]
  have htr : (runOp (Env.cooperative delivered) b Op.Start).trace
      = startSequence b ++ [Event.deferred (Call.stop signalCtx)] := by
    rw [start_trace_cooperative, hfire]; simp
  have hstop := stop_run_cooperative b delivered
  have h2 := runOps_cons_run (Env.cooperative delivered) Op.Start [Op.Stop] b hret
  have h3 := runOps_single (Env.cooperative delivered) Op.Stop b
  refine ⟨hret, htr, ?_, ?_, ?_⟩
  · intro e he m s
    rw [htr] at he
    simp only [startSequence, List.cons_append, List.nil_append, List.mem_cons,
      List.mem_singleton, List.not_mem_nil, or_false] at he
    rcases he with h | h | h | h | h | h | h | h | h <;> subst h <;> simp [Event.call]
  · rw [h2.1, h3.1, htr, hstop.1]
    simp [stopSequence, BaseApp.Logger]
  · rw [h2.2, h3.2, hstop.2]

/-- Witness for claim C1 (amended): a run with `SIGTERM` delivered. -/
theorem start_returns_then_caller_stops_witness :
    cancelled [Signal.sigterm] = true
      ∧ (runOp (Env.cooperative [Signal.sigterm]) demoApp Op.Start).returned = true
      ∧ (runOps (Env.cooperative [Signal.sigterm]) [Op.Start, Op.Stop] demoApp).returned = true :=
  ⟨by decide,
   (start_returns_then_caller_stops demoApp [Signal.sigterm] (by decide)).1,
   (start_returns_then_caller_stops demoApp [Signal.sigterm] (by decide)).2.2.2.2⟩

/-- Claim C2, as stated, fails: in a run in which the interrupt signal is
delivered the trace of `Start` is not the eight listed effects; the deferred
release of the signal listener follows the wait. -/
theorem start_trace_counterexample :
    (runOp (Env.cooperative [Signal.interrupt]) demoApp Op.Start).trace ≠ startSequence demoApp
      ∧ (runOp (Env.cooperative [Signal.interrupt]) demoApp Op.Start).trace
          = startSequence demoApp ++ [Event.deferred (Call.stop signalCtx)] := by
  decide

/-- Claim C2 (amended): when the calls return, the trace of `Start` is exactly
the log entry, the signal listener, the shared context, `jobMgr.Start(ctx)`,
`jobMgr.RunProducers(ctx)`, the `/metrics` registration, the launch of
`svr.Start` and the wait on `ctx.Done`, in this order, followed (only when the
cancellation fires, so that the wait ends) by the deferred release of the
signal listener.  In every run the trace is an initial segment of that list;
`jobMgr.RunProducers` is called only after `jobMgr.Start` returned, the
registration only after `jobMgr.RunProducers` returned, the launch only after
the registration returned; and `svr.Start` is the only asynchronous step. -/
theorem start_sequence_order (b : BaseApp) (env : Env) :
    (runOp (Env.cooperative env.delivered) b Op.Start).trace
        = startSequence b
            ++ (if cancelled env.delivered then [Event.deferred (Call.stop signalCtx)] else [])
      ∧ (runOp env b Op.Start).trace
          <+: startSequence b ++ [Event.deferred (Call.stop signalCtx)]
      ∧ (Event.sync (Call.jobMgrRunProducers b.jobMgr b.sharedCtx) ∈ (runOp env b Op.Start).trace
          → env.returns (Call.jobMgrStart b.jobMgr b.sharedCtx) = true)
      ∧ (Event.sync (Call.RegisterHandler b.svr ⟨"/metrics", HTTPHandler.promhttp⟩)
            ∈ (runOp env b Op.Start).trace
          → env.returns (Call.jobMgrRunProducers b.jobMgr b.sharedCtx) = true)
      ∧ (Event.async (Call.svrStart b.svr) ∈ (runOp env b Op.Start).trace
          → env.returns (Call.RegisterHandler b.svr ⟨"/metrics", HTTPHandler.promhttp⟩) = true)
      ∧ (∀ e ∈ (runOp env b Op.Start).trace,
          e.isAsync = true ↔ e = Event.async (Call.svrStart b.svr)) := by
  refine ⟨start_trace_cooperative b env.delivered, start_trace_initial b env, ?_, ?_, ?_, ?_⟩
  · rw [start_trace]; simp
  · rw [start_trace]; simp
  · rw [start_trace]; simp
  · intro e he
    have hmem := (start_trace_initial b env).subset he
    simp only [startSequence, List.cons_append, List.nil_append, List.mem_cons,
      List.mem_singleton, List.not_mem_nil, or_false] at hmem
    rcases hmem with h | h | h | h | h | h | h | h | h <;> subst h <;> simp [Event.isAsync]

/-- Witness for claim C2 (amended): a run in which every call returns and no
signal arrives has launched the server after the registration returned. -/
theorem start_sequence_order_witness :
    Event.async (Call.svrStart demoApp.svr)
        ∈ (runOp (Env.cooperative []) demoApp Op.Start).trace
      ∧ (Env.cooperative []).returns
          (Call.RegisterHandler demoApp.svr ⟨"/metrics", HTTPHandler.promhttp⟩) = true :=
  ⟨by decide, (start_sequence_order demoApp (Env.cooperative [])).2.2.2.2.1 (by decide)⟩

/-- Claim C3: the trace of `Stop` is exactly the info log entry "stopping app",
then `jobMgr.Stop`, then `svr.Stop`, each called synchronously: when the calls
return the trace is this list and `Stop` returns; in every run the trace is an
initial segment of it, `jobMgr.Stop` is called only after the log call
returned and `svr.Stop` only after `jobMgr.Stop` returned, no step is
asynchronous or deferred, and every event is one of the three. -/
theorem stop_sequence_order (b : BaseApp) (env : Env) :
    (runOp (Env.cooperative env.delivered) b Op.Stop).trace
        = [ Event.sync (Call.log (b.logger.With "namespace" (b.name ++ "-app"))
              Level.info "stopping app"),
            Event.sync (Call.jobMgrStop b.jobMgr),
            Event.sync (Call.svrStop b.svr) ]
      ∧ (runOp (Env.cooperative env.delivered) b Op.Stop).returned = true
      ∧ (runOp env b Op.Stop).trace <+: stopSequence b
      ∧ (Event.sync (Call.jobMgrStop b.jobMgr) ∈ (runOp env b Op.Stop).trace
          → env.returns (Call.log b.Logger Level.info "stopping app") = true)
      ∧ (Event.sync (Call.svrStop b.svr) ∈ (runOp env b Op.Stop).trace
          → env.returns (Call.jobMgrStop b.jobMgr) = true)
      ∧ (∀ e ∈ (runOp env b Op.Stop).trace,
          e = Event.sync (Call.log b.Logger Level.info "stopping app")
            ∨ e = Event.sync (Call.jobMgrStop b.jobMgr)
            ∨ e = Event.sync (Call.svrStop b.svr)) := by
  refine ⟨(stop_run_cooperative b env.delivered).1, (stop_run_cooperative b env.delivered).2,
    stop_trace_initial b env, ?_, ?_, ?_⟩
  · rw [stop_trace]; simp
  · rw [stop_trace]; simp
  · intro e he
    have hmem := (stop_trace_initial b env).subset he
    simpa [stopSequence, BaseApp.Logger] using hmem

/-- Witness for claim C3: when every call returns, `svr.Stop` is in the trace
and `jobMgr.Stop` has returned. -/
theorem stop_sequence_order_witness :
    Event.sync (Call.svrStop demoApp.svr) ∈ (runOp (Env.cooperative []) demoApp Op.Stop).trace
      ∧ (Env.cooperative []).returns (Call.jobMgrStop demoApp.jobMgr) = true :=
  ⟨by decide, (stop_sequence_order demoApp (Env.cooperative [])).2.2.2.2.1 (by decide)⟩

/-- Claim C4, as stated, fails: for the coordinator built with the caller's
logger `Logger.ref 7`, the context that `Start` hands to `jobMgr.Start` does
not carry that logger; it carries the blank logger on standard output. -/
theorem shared_context_logger_counterexample :
    ¬ (∀ m ctx,
        Event.sync (Call.jobMgrStart m ctx)
            ∈ (runOp (Env.cooperative []) (New "relayer" (Logger.ref 7) ⟨1⟩ [⟨10⟩, ⟨11⟩] ⟨2⟩)
                Op.Start).trace
          → ctx.Logger = some (Logger.ref 7)) := by
  intro h
  have h1 := h (NewManager "relayer" (Logger.ref 7) [⟨10⟩, ⟨11⟩])
    (New "relayer" (Logger.ref 7) ⟨1⟩ [⟨10⟩, ⟨11⟩] ⟨2⟩).sharedCtx (by decide)
  revert h1
  decide

/-- Claim C4 (amended): for every name, logger `L`, chain client `C`, job list
and store `D`, `Start` of `New name L C jobs D` hands a shared context to the
job manager (it does so whenever the calls return), and every context it hands
over carries chain client `C` and store `D`, while its logger is the
coordinator's own logger, the blank logger on standard output that `New`
creates, not `L`; `L` goes only to the job manager's constructor. -/
theorem shared_context_carries (name : String) (L : Logger) (C : EthClient)
    (jobs : List Job) (D : KeyValueStore) (env : Env) :
    Event.sync (Call.jobMgrStart (NewManager name L jobs) (New name L C jobs D).sharedCtx)
        ∈ (runOp (Env.cooperative env.delivered) (New name L C jobs D) Op.Start).trace
      ∧ (New name L C jobs D).logger = NewBlankLogger Writer.Stdout
      ∧ (∀ m ctx,
          Event.sync (Call.jobMgrStart m ctx) ∈ (runOp env (New name L C jobs D) Op.Start).trace
            → m = NewManager name L jobs
              ∧ ctx.Client = some C
              ∧ ctx.Logger = some (NewBlankLogger Writer.Stdout)
              ∧ ctx.DB = some D) := by
  refine ⟨?_, rfl, ?_⟩
  · rw [start_trace_cooperative]
    simp [startSequence, New]
  · intro m ctx he
    have hmem := (start_trace_initial (New name L C jobs D) env).subset he
    simp only [startSequence, List.cons_append, List.nil_append, List.mem_cons,
      List.mem_singleton, List.not_mem_nil, or_false, Event.sync.injEq, reduceCtorEq,
      false_or, Call.jobMgrStart.injEq] at hmem
    obtain ⟨hm, hc⟩ := hmem
    subst hm hc
    simp [New, BaseApp.sharedCtx, NewContext, GoContext.Client, GoContext.Logger, GoContext.DB]

/-- Witness for claim C4 (amended): the context handed over by the coordinator
built with `Logger.ref 7` carries the blank logger on standard output. -/
theorem shared_context_carries_witness :
    (New "relayer" (Logger.ref 7) ⟨1⟩ [⟨10⟩, ⟨11⟩] ⟨2⟩).sharedCtx.Logger
      = some (NewBlankLogger Writer.Stdout) :=
  ((shared_context_carries "relayer" (Logger.ref 7) ⟨1⟩ [⟨10⟩, ⟨11⟩] ⟨2⟩ (Env.cooperative [])).2.2
    (NewManager "relayer" (Logger.ref 7) [⟨10⟩, ⟨11⟩])
    (New "relayer" (Logger.ref 7) ⟨1⟩ [⟨10⟩, ⟨11⟩] ⟨2⟩).sharedCtx (by decide)).2.2.1

/-- Claim C5: `Start` installs its signal listener with
`signal.NotifyContext` on the background context for exactly the signals
`os.Interrupt` and `syscall.SIGTERM`: the call is made as soon as the log call
returned, no other listener is installed, a signal is registered exactly when
it is one of the two, and the context `Start` waits on is done, before the
deferred release, exactly when one of the two signals was delivered. -/
theorem signal_set (b : BaseApp) (env : Env) :
    (env.returns (Call.log b.Logger Level.info "starting app") = true
        → Event.sync (Call.NotifyContext GoContext.background [Signal.interrupt, Signal.sigterm])
            ∈ (runOp env b Op.Start).trace)
      ∧ (∀ e ∈ (runOp env b Op.Start).trace, ∀ p sigs,
          e.call = some (Call.NotifyContext p sigs)
            → p = GoContext.background
              ∧ ∀ s, s ∈ sigs ↔ s = Signal.interrupt ∨ s = Signal.sigterm)
      ∧ (∀ ctx, Event.wait ctx ∈ (runOp env b Op.Start).trace →
          ∀ delivered, ctx.Done delivered [] = true
            ↔ ∃ s ∈ delivered, s = Signal.interrupt ∨ s = Signal.sigterm)
      ∧ ((runOp (Env.cooperative env.delivered) b Op.Start).returned = true
          ↔ ∃ s ∈ env.delivered, s = Signal.interrupt ∨ s = Signal.sigterm) := by
  refine ⟨?_, ?_, ?_, ?_⟩
  · intro h
    rw [start_trace]; simp [h]
  · intro e he p sigs
    have hmem := (start_trace_initial b env).subset he
    simp only [startSequence, List.cons_append, List.nil_append, List.mem_cons,
      List.mem_singleton, List.not_mem_nil, or_false] at hmem
    rcases hmem with h | h | h | h | h | h | h | h | h <;> subst h <;> simp [Event.call]
    rintro rfl rfl
    simp
  · intro ctx hctx delivered
    have hmem := (start_trace_initial b env).subset hctx
    have hc : ctx = b.sharedCtx := by
      simpa [startSequence] using hmem
    rw [hc, sharedCtx_done]
    simp [cancelled]
  · rw [start_returned_cooperative]
    simp [cancelled]

/-- Witness for claim C5: with the log call returning, the listener is
installed for the two signals. -/
theorem signal_set_witness :
    (Env.cooperative []).returns (Call.log demoApp.Logger Level.info "starting app") = true
      ∧ Event.sync (Call.NotifyContext GoContext.background [Signal.interrupt, Signal.sigterm])
          ∈ (runOp (Env.cooperative []) demoApp Op.Start).trace :=
  ⟨by decide, (signal_set demoApp (Env.cooperative [])).1 (by decide)⟩

/-- Claim C6: `RegisterHTTPHandlers` is the single call
`svr.RegisterHandler` with path "/metrics" and the `promhttp` handler; its
trace is that one registration in every run; `n` calls give `n` registrations
of "/metrics", none dropped or rejected; and in every run of `Start` in which
the server is launched, the registration is in the trace before the launch
and had returned. -/
theorem register_metrics (b : BaseApp) (env : Env) (n : Nat) :
    b.RegisterHTTPHandlers
        = [Stmt.call (Call.RegisterHandler b.svr ⟨"/metrics", HTTPHandler.promhttp⟩)]
      ∧ (runOp env b Op.RegisterHTTPHandlers).trace
          = [Event.sync (Call.RegisterHandler b.svr ⟨"/metrics", HTTPHandler.promhttp⟩)]
      ∧ (runOps (Env.cooperative env.delivered)
            (List.replicate n Op.RegisterHTTPHandlers) b).trace
          = List.replicate n
              (Event.sync (Call.RegisterHandler b.svr ⟨"/metrics", HTTPHandler.promhttp⟩))
      ∧ (Event.async (Call.svrStart b.svr) ∈ (runOp env b Op.Start).trace
          → env.returns (Call.RegisterHandler b.svr ⟨"/metrics", HTTPHandler.promhttp⟩) = true
            ∧ (startSequence b).take 7 <+: (runOp env b Op.Start).trace)
      ∧ (startSequence b).drop 5
          = [ Event.sync (Call.RegisterHandler b.svr ⟨"/metrics", HTTPHandler.promhttp⟩),
              Event.async (Call.svrStart b.svr),
              Event.wait b.sharedCtx ] := by
  refine ⟨rfl, ?_, (register_replicate b env.delivered n).1, ?_, ?_⟩
  · exact (register_run b env).1
  · rw [start_trace]
    simp only [startSequence, BaseApp.Logger]
    split_ifs <;> simp_all [List.cons_prefix_cons]
  · simp [startSequence]

/-- Witness for claim C6: in a run in which every call returns the server is
launched, after the registration returned. -/
theorem register_metrics_witness :
    Event.async (Call.svrStart demoApp.svr) ∈ (runOp (Env.cooperative []) demoApp Op.Start).trace
      ∧ (startSequence demoApp).take 7 <+: (runOp (Env.cooperative []) demoApp Op.Start).trace :=
  ⟨by decide, ((register_metrics demoApp (Env.cooperative []) 2).2.2.2.1 (by decide)).2⟩

/-- Claim C7: `Stop` has no precondition beyond the fields.  After any
history of operations (none, a `Start`, earlier `Stop`s; finished or still
blocked) the coordinator is the one constructed and `Stop` runs as on the
fresh coordinator; appended to a history that returned it contributes exactly
its own trace.  Its body has no wait, its trace has no wait event, and it
returns exactly when its log call and the two collaborator `Stop` calls
return, whatever signals were or were not delivered.  A second `Stop` is not
guarded: two calls give the shutdown sequence twice. -/
theorem stop_unconditional (b : BaseApp) (env : Env) (hist : List Op) :
    runOp env (runOps env hist b).app Op.Stop = runOp env b Op.Stop
      ∧ ((runOps env hist b).returned = true →
          (runOps env (hist ++ [Op.Stop]) b).trace
              = (runOps env hist b).trace ++ (runOp env b Op.Stop).trace
            ∧ (runOps env (hist ++ [Op.Stop]) b).returned = (runOp env b Op.Stop).returned)
      ∧ (∀ s ∈ b.Stop, ∀ ctx, s ≠ Stmt.recv ctx)
      ∧ (∀ ctx, Event.wait ctx ∉ (runOp env b Op.Stop).trace)
      ∧ (runOp env b Op.Stop).returned
          = (env.returns (Call.log b.Logger Level.info "stopping app")
              && env.returns (Call.jobMgrStop b.jobMgr)
              && env.returns (Call.svrStop b.svr))
      ∧ (runOp (Env.cooperative env.delivered) b Op.Stop).trace = stopSequence b
      ∧ (runOps (Env.cooperative env.delivered) [Op.Stop, Op.Stop] b).trace
          = stopSequence b ++ stopSequence b
      ∧ (runOps (Env.cooperative env.delivered) [Op.Stop, Op.Stop] b).returned = true := by
  have hstop := stop_run_cooperative b env.delivered
  have h1 := runOps_cons_run (Env.cooperative env.delivered) Op.Stop [Op.Stop] b hstop.2
  have h2 := runOps_single (Env.cooperative env.delivered) Op.Stop b
  have hone := runOps_single env Op.Stop b
  refine ⟨by rw [runOps_app], ?_, ?_, ?_, ?_, hstop.1, ?_, ?_⟩
  · intro h
    have := runOps_append env hist [Op.Stop] b h
    rw [this.1, this.2, hone.1, hone.2]
    simp
  · simp [BaseApp.Stop]
  · intro ctx he
    have hmem := (stop_trace_initial b env).subset he
    simp [stopSequence] at hmem
  · rw [stop_returned, Bool.and_assoc]
  · rw [h1.1, h2.1, hstop.1]
  · rw [h1.2, h2.2, hstop.2]

/-- Witness for claim C7: `Stop` after a `Start` that returned on `SIGTERM`
and an earlier `Stop`. -/
theorem stop_unconditional_witness :
    (runOps (Env.cooperative [Signal.sigterm]) [Op.Start, Op.Stop] demoApp).returned = true
      ∧ (runOps (Env.cooperative [Signal.sigterm]) ([Op.Start, Op.Stop] ++ [Op.Stop]) demoApp).trace
          = (runOps (Env.cooperative [Signal.sigterm]) [Op.Start, Op.Stop] demoApp).trace
              ++ (runOp (Env.cooperative [Signal.sigterm]) demoApp Op.Stop).trace :=
  ⟨by decide,
   ((stop_unconditional demoApp (Env.cooperative [Signal.sigterm]) [Op.Start, Op.Stop]).2.1
      (by decide)).1⟩

/-- Claim C8: for a coordinator with process name `n`, `Logger()` is the
coordinator's logger tagged with key "namespace" and value `n ++ "-app"`; in
every run the first effect of `Start` is the info entry "starting app" on that
logger and the first effect of `Stop` is the info entry "stopping app" on it;
no later event of either trace is a log call, so the coordinator emits no
other entry and none at error level. -/
theorem log_entries (b : BaseApp) (env : Env) :
    b.Logger = Logger.With b.logger "namespace" (b.name ++ "-app")
      ∧ (runOp env b Op.Start).trace.head?
          = some (Event.sync (Call.log b.Logger Level.info "starting app"))
      ∧ (runOp env b Op.Stop).trace.head?
          = some (Event.sync (Call.log b.Logger Level.info "stopping app"))
      ∧ (∀ e ∈ (runOp env b Op.Start).trace.tail, ∀ l lvl msg, e.call ≠ some (Call.log l lvl msg))
      ∧ (∀ e ∈ (runOp env b Op.Stop).trace.tail, ∀ l lvl msg, e.call ≠ some (Call.log l lvl msg))
      ∧ (∀ e ∈ (runOp env b Op.Start).trace, ∀ l msg, e.call ≠ some (Call.log l Level.error msg))
      ∧ (∀ e ∈ (runOp env b Op.Stop).trace, ∀ l msg, e.call ≠ some (Call.log l Level.error msg)) := by
  refine ⟨rfl, ?_, ?_, ?_, ?_, ?_, ?_⟩
  · rw [start_trace]; simp
  · rw [stop_trace]; simp
  · rw [start_trace]
    simp only [List.tail_cons]
    split_ifs <;> simp [Event.call]
  · rw [stop_trace]
    simp only [List.tail_cons]
    split_ifs <;> simp [Event.call]
  · intro e he l msg
    have hmem := (start_trace_initial b env).subset he
    simp only [startSequence, List.cons_append, List.nil_append, List.mem_cons,
      List.mem_singleton, List.not_mem_nil, or_false] at hmem
    rcases hmem with h | h | h | h | h | h | h | h | h <;> subst h <;> simp [Event.call]
  · intro e he l msg
    have hmem := (stop_trace_initial b env).subset he
    simp only [stopSequence, List.mem_cons, List.mem_singleton, List.not_mem_nil,
      or_false] at hmem
    rcases hmem with h | h | h <;> subst h <;> simp [Event.call]

/-- Claim C9: every operation leaves the coordinator's fields unchanged: after
any sequence of `Logger`, `Start`, `RegisterHTTPHandlers` and `Stop`, in any
run, the coordinator is the one the sequence started from, so for a
coordinator built by `New` the process name, the job manager, the server, the
chain client and the store are the ones `New` set. -/
theorem fields_fixed (name : String) (L : Logger) (C : EthClient) (jobs : List Job)
    (D : KeyValueStore) (b : BaseApp) (env : Env) (ops : List Op) :
    (runOps env ops b).app = b
      ∧ (∀ op, (runOp env b op).app = b)
      ∧ (runOps env ops (New name L C jobs D)).app.name = name
      ∧ (runOps env ops (New name L C jobs D)).app.jobMgr = NewManager name L jobs
      ∧ (runOps env ops (New name L C jobs D)).app.svr = Server.New
      ∧ (runOps env ops (New name L C jobs D)).app.ethClient = C
      ∧ (runOps env ops (New name L C jobs D)).app.db = D := by
  refine ⟨runOps_app env ops b, fun op => runOp_app env b op, ?_, ?_, ?_, ?_, ?_⟩ <;>
    rw [runOps_app] <;> rfl

/-- Claim C10: in every run of `Start` one and the same context is passed to
`jobMgr.Start`, passed to `jobMgr.RunProducers` and waited on: the shared
context wrapping the signal context, done exactly when the signal context is.
When the calls return all three events occur, `Start` returns exactly when that
context is done, and when it returns its last effect is the deferred release
of the signal listener. -/
theorem one_context (b : BaseApp) (env : Env) :
    b.sharedCtx = GoContext.sdk signalCtx b.ethClient b.logger b.db
      ∧ (∀ delivered released,
          b.sharedCtx.Done delivered released = signalCtx.Done delivered released)
      ∧ (∀ m ctx, Event.sync (Call.jobMgrStart m ctx) ∈ (runOp env b Op.Start).trace
          → m = b.jobMgr ∧ ctx = b.sharedCtx)
      ∧ (∀ m ctx, Event.sync (Call.jobMgrRunProducers m ctx) ∈ (runOp env b Op.Start).trace
          → m = b.jobMgr ∧ ctx = b.sharedCtx)
      ∧ (∀ ctx, Event.wait ctx ∈ (runOp env b Op.Start).trace → ctx = b.sharedCtx)
      ∧ Event.sync (Call.jobMgrStart b.jobMgr b.sharedCtx)
          ∈ (runOp (Env.cooperative env.delivered) b Op.Start).trace
      ∧ Event.sync (Call.jobMgrRunProducers b.jobMgr b.sharedCtx)
          ∈ (runOp (Env.cooperative env.delivered) b Op.Start).trace
      ∧ Event.wait b.sharedCtx ∈ (runOp (Env.cooperative env.delivered) b Op.Start).trace
      ∧ (runOp (Env.cooperative env.delivered) b Op.Start).returned
          = b.sharedCtx.Done env.delivered []
      ∧ ((runOp env b Op.Start).returned = true
          → b.sharedCtx.Done env.delivered [] = true
            ∧ (runOp env b Op.Start).trace.getLast?
                = some (Event.deferred (Call.stop signalCtx))) := by
  refine ⟨rfl, fun _ _ => rfl, ?_, ?_, ?_, ?_, ?_, ?_, ?_, ?_⟩
  · intro m ctx he
    have hmem := (start_trace_initial b env).subset he
    simpa [startSequence] using hmem
  · intro m ctx he
    have hmem := (start_trace_initial b env).subset he
    simpa [startSequence] using hmem
  · intro ctx he
    have hmem := (start_trace_initial b env).subset he
    simpa [startSequence] using hmem
  · rw [start_trace_cooperative]; simp [startSequence]
  · rw [start_trace_cooperative]; simp [startSequence]
  · rw [start_trace_cooperative]; simp [startSequence]
  · rw [start_returned_cooperative, sharedCtx_done]
  · intro h
    rw [start_returned] at h
    simp only [Bool.and_eq_true] at h
    obtain ⟨h1, h2, h3, h4, h5, h6, h7, _⟩ := h
    rw [start_trace, sharedCtx_done]
    simp [h1, h2, h3, h4, h5, h6, h7]

/-- Witness for claim C10: a run in which `SIGTERM` arrives and every call
returns ends with the release of the signal listener. -/
theorem one_context_witness :
    (runOp (Env.cooperative [Signal.sigterm]) demoApp Op.Start).returned = true
      ∧ (runOp (Env.cooperative [Signal.sigterm]) demoApp Op.Start).trace.getLast?
          = some (Event.deferred (Call.stop signalCtx)) :=
  ⟨by decide, ((one_context demoApp (Env.cooperative [Signal.sigterm])).2.2.2.2.2.2.2.2.2
    (by decide)).2⟩

end Baseapp
